import Mathlib

/-!
# sntpq: reference-identifier decoding and the bounded chain walk

A shallow embedding of `sntpq.go` (and of `asIP` from `ntpq.go`).

* Go strings and byte slices are lists of bytes (`GoString`); a byte is a `Nat`.
* `uint32` and `uint8` values are `Nat`s; the shifts and masks of the source are kept.
* Go's `int` budget is an `Int`; the only arithmetic on it is `rlimit - 1`, and every
  budget reachable from `main` lies in 0..15, so the wrap-around at the least `int` is
  not modelled.
* The collaborators (`ntp.Query`, `Response.Validate`, `net.ParseIP`, `net.LookupAddr`)
  are the fields of an environment `Env σ` over an arbitrary world state `σ`, so a server
  or a resolver may answer differently on every call.
* A run-time failure (index or slice bounds out of range) is an explicit outcome.
-/

namespace Sntpq

/-! ## Strings and formatting verbs -/

/-- Go strings and byte slices, as the sequence of their bytes. -/
abbrev GoString := List Nat

/-- The bytes of an ASCII literal of the source. -/
def ascii (s : String) : GoString := s.toList.map Char.toNat

/-- The verb `%d` of package fmt on an unsigned value: its decimal digits. -/
def fmtD (n : Nat) : GoString := (Nat.toDigits 10 n).map Char.toNat

/-- The verb `%08x` of package fmt: lower-case hexadecimal digits, zero-padded to width 8. -/
def fmtX08 (n : Nat) : GoString :=
  let d := (Nat.toDigits 16 n).map Char.toNat
  List.replicate (8 - d.length) 48 ++ d

/-- Whether `ds` is the decimal numeral of `n`: ASCII digits only, no leading zero
except for the single digit `0`, and of value `n`. -/
def isDecimalOf (ds : GoString) (n : Nat) : Bool :=
  ds.all (fun d => decide (48 ≤ d ∧ d ≤ 57))
    && decide (ds ≠ [])
    && decide (ds.head? = some 48 → ds.length = 1)
    && decide (ds.foldl (fun acc d => 10 * acc + (d - 48)) 0 = n)

/-- The conversion `byte(x)`. -/
def byte (x : Nat) : Nat := x % 256

/-! ## Identifier decoder -/

/-- The loop of `printable`, at index `i` with `rest` still to scan. -/
def printableFrom : Nat → List Nat → Nat
  | i, [] => i
  | i, b :: rest => if b < 32 ∨ b > 126 then i else printableFrom (i + 1) rest

/-- Source `printable`: the length of the printable part at the start of a byte slice. -/
def printable (inp : List Nat) : Nat := printableFrom 0 inp

/-- Source `refIDToBytes`: a fresh 4-byte slice, filled from the shifts 24, 16, 8, 0. -/
def refIDToBytes (refid : Nat) : List Nat :=
  ([24, 16, 8, 0].enum).foldl
    (fun n p => n.set p.1 (byte ((refid >>> p.2) &&& 0xff)))
    (List.replicate 4 0)

/-- Source `genAddr`: `%d.%d.%d.%d` of `b[0]` to `b[3]`; `none` is the index failure
on a slice shorter than four bytes. -/
def genAddr (b : List Nat) : Option GoString :=
  match b with
  | b0 :: b1 :: b2 :: b3 :: _ =>
      some (fmtD b0 ++ ascii "." ++ fmtD b1 ++ ascii "." ++ fmtD b2 ++ ascii "." ++ fmtD b3)
  | _ => none

/-- Source `asIP` of `ntpq.go`. -/
def asIP (rawip : Nat) : GoString :=
  let a := (rawip >>> 24) &&& 0xff
  let b := (rawip >>> 16) &&& 0xff
  let c := (rawip >>> 8) &&& 0xff
  let d := rawip &&& 0xff
  fmtD a ++ ascii "." ++ fmtD b ++ ascii "." ++ fmtD c ++ ascii "." ++ fmtD d

/-- The test `bts[0] >= 224` of `formatRefID` and of `reportOn`; `none` is the index
failure on an empty slice. -/
def isReservedRange (bts : List Nat) : Option Bool :=
  match bts with
  | b0 :: _ => some (decide (b0 ≥ 224))
  | [] => none

/-- The slice expression `x[:len(x)-1]`; `none` is the bounds failure on an empty string. -/
def sliceDropLast (x : GoString) : Option GoString :=
  if x.length = 0 then none else some (x.take (x.length - 1))

/-! ## Collaborators, events and outcomes -/

/-- The fields of `ntp.Response` that `reportOn` reads. The time and duration fields are
kept as their `%s` renderings. -/
structure Response where
  Stratum : Nat
  ReferenceID : Nat
  KissCode : GoString
  Leap : Nat
  Time : GoString
  RTT : GoString
  Precision : GoString
  MinError : GoString
  ReferenceTime : GoString
  RootDelay : GoString
  RootDispersion : GoString
  RootDistance : GoString
  ClockOffset : GoString
deriving DecidableEq, Repr

/-- The external collaborators, over a world state `σ` that every network call may change.
An error is carried as its message. -/
structure Env (σ : Type) where
  /-- The call `ntp.Query(host)`. -/
  query : σ → GoString → Except GoString Response × σ
  /-- The call `resp.Validate()`: `none` is a nil error. -/
  validate : σ → Response → Option GoString
  /-- Whether `net.ParseIP(host)` is non-nil. -/
  parseIP : GoString → Bool
  /-- The call `net.LookupAddr(addr)`. -/
  lookupAddr : σ → GoString → Except GoString (List GoString) × σ

/-- What a run does that can be observed from outside. -/
inductive Event where
  | query (host : GoString)
  | lookupAddr (addr : GoString)
  | logf (msg : GoString)
  | printf (text : GoString)
  | runtimeFailure
deriving DecidableEq, Repr

/-- The outcome of a helper that talks to the resolver: the events it caused, the world
after it, and its value (`none` when it failed at run time). -/
structure Res (σ : Type) (α : Type) where
  events : List Event
  state : σ
  val : Option α

/-! ## Hostname resolver adapter and `formatRefID` -/

/-- Source `maybeHostname`. -/
def maybeHostname {σ : Type} (E : Env σ) (s : σ) (host : GoString) : Res σ GoString :=
  if E.parseIP host = false then ⟨[], s, some []⟩
  else
    match E.lookupAddr s host with
    | (.error _, s1) => ⟨[.lookupAddr host], s1, some []⟩
    | (.ok [], s1) => ⟨[.lookupAddr host], s1, some []⟩
    | (.ok (r0 :: _), s1) =>
        match sliceDropLast r0 with
        | none => ⟨[.lookupAddr host, .runtimeFailure], s1, none⟩
        | some nm => ⟨[.lookupAddr host], s1, some nm⟩

/-- Source `formatRefID`. -/
def formatRefID {σ : Type} (E : Env σ) (s : σ) (refid : Nat) (stratum : Nat) :
    Res σ GoString :=
  let bts := refIDToBytes refid
  match genAddr bts with
  | none => ⟨[.runtimeFailure], s, none⟩
  | some addr =>
      if stratum = 1 then
        let mx := printable bts
        if mx > 0 then ⟨[], s, some (addr ++ ascii " ." ++ bts.take mx ++ ascii ".")⟩
        else ⟨[], s, some addr⟩
      else
        match isReservedRange bts with
        | none => ⟨[.runtimeFailure], s, none⟩
        | some true => ⟨[], s, some addr⟩
        | some false =>
            match E.lookupAddr s addr with
            | (.error _, s1) => ⟨[.lookupAddr addr], s1, some addr⟩
            | (.ok [], s1) => ⟨[.lookupAddr addr], s1, some addr⟩
            | (.ok (r0 :: _), s1) =>
                match sliceDropLast r0 with
                | none => ⟨[.lookupAddr addr, .runtimeFailure], s1, none⟩
                | some nm => ⟨[.lookupAddr addr], s1, some (addr ++ ascii " " ++ nm)⟩

/-! ## Chain walker -/

/-- The record of one invocation of `reportOn`: its arguments, the reply it got (if the
query succeeded), its events in order, whether it failed at run time, and the arguments
of the recursive call it ends with (if any). -/
structure Hop where
  host : GoString
  recurs : Bool
  rlimit : Int
  reply : Option Response
  events : List Event
  failed : Bool
  next : Option (GoString × Bool × Int)
deriving DecidableEq, Repr

/-- The header line of a hop: `"%s %s:\n"` with a resolved name, `"%s:\n"` without. -/
def headerLine (host ph : GoString) : GoString :=
  if ph ≠ [] then host ++ ascii " " ++ ph ++ ascii ":\n" else host ++ ascii ":\n"

/-- The line printed for a non-nil validation error. -/
def validityLine (e : GoString) : GoString := ascii "  validity problem: " ++ e ++ ascii "\n"

/-- The line printed for a non-empty kiss code. -/
def kissLine (k : GoString) : GoString := ascii "  go-away code: '" ++ k ++ ascii "'\n"

/-- The line `Stratum`. -/
def stratumLine (resp : Response) : GoString :=
  ascii "  Stratum:         " ++ fmtD resp.Stratum ++ ascii "\n"

/-- The line `Time Source`, from the value of `formatRefID`. -/
def timeSourceLine (src : GoString) (resp : Response) : GoString :=
  ascii "  Time Source:     " ++ src ++ ascii " (" ++ fmtX08 resp.ReferenceID ++ ascii ")\n"

/-- The nine lines printed after `Time Source`, in the order of the source. -/
def tailLines (resp : Response) : List GoString :=
  [ ascii "  Time at xmit:    " ++ resp.Time ++ ascii "\n",
    ascii "  RTT:             " ++ resp.RTT ++ ascii "\n",
    ascii "  Precision:       " ++ resp.Precision ++ ascii "\n",
    ascii "  MinError:        " ++ resp.MinError ++ ascii "\n",
    ascii "  Clock updated:   " ++ resp.ReferenceTime ++ ascii "\n",
    ascii "  Root delay:      " ++ resp.RootDelay ++ ascii "\n",
    ascii "  Root dispersion: " ++ resp.RootDispersion ++ ascii "\n",
    ascii "  local root distance: " ++ resp.RootDistance ++ ascii " (via this server)\n",
    ascii "  local adjustment:    " ++ resp.ClockOffset
      ++ ascii " (based on this server's time)\n" ]

/-- The line printed for a non-zero leap indicator. -/
def leapLine (resp : Response) : GoString :=
  ascii "  Leap second marker: " ++ fmtD resp.Leap ++ ascii "\n"

/-- The end of `reportOn` (the guard, the reserved-range test and the arguments of the
recursive call): `none` is a run-time failure, `some none` a return, `some (some a)` the
call `reportOn a`. -/
def continueTo (recurs : Bool) (err : Option GoString) (rlimit : Int) (resp : Response) :
    Option (Option (GoString × Bool × Int)) :=
  if !recurs || err.isSome || rlimit == 0 || decide (resp.Stratum ≤ 1) then some none
  else
    let bts := refIDToBytes resp.ReferenceID
    match isReservedRange bts with
    | none => none
    | some true => some none
    | some false =>
        match genAddr bts with
        | none => none
        | some addr => some (some (addr, recurs, rlimit - 1))

/-- One invocation of `reportOn`, up to its recursive call. -/
def reportOnStep {σ : Type} (E : Env σ) (s : σ) (host : GoString) (recurs : Bool)
    (rlimit : Int) : Hop × σ :=
  match E.query s host with
  | (.error err, s1) =>
      (⟨host, recurs, rlimit, none,
        [.query host, .logf (ascii "error querying '" ++ host ++ ascii "': " ++ err)],
        false, none⟩, s1)
  | (.ok resp, s1) =>
      let mh := maybeHostname E s1 host
      match mh.val with
      | none => (⟨host, recurs, rlimit, some resp, .query host :: mh.events, true, none⟩,
          mh.state)
      | some ph =>
          let err := E.validate mh.state resp
          let validity : List Event :=
            match err with
            | some e => [.printf (validityLine e)]
            | none => []
          let kiss : List Event :=
            if resp.KissCode ≠ [] then [.printf (kissLine resp.KissCode)] else []
          let fr := formatRefID E mh.state resp.ReferenceID resp.Stratum
          let upto : List Event :=
            .query host :: mh.events ++ [.printf (headerLine host ph)] ++ validity ++ kiss
              ++ [.printf (stratumLine resp)] ++ fr.events
          match fr.val with
          | none => (⟨host, recurs, rlimit, some resp, upto, true, none⟩, fr.state)
          | some src =>
              let leap : List Event :=
                if resp.Leap ≠ 0 then [.printf (leapLine resp)] else []
              let all : List Event :=
                upto ++ [.printf (timeSourceLine src resp)]
                  ++ (tailLines resp).map Event.printf ++ leap
              match continueTo recurs err rlimit resp with
              | none =>
                  (⟨host, recurs, rlimit, some resp, all ++ [.runtimeFailure], true, none⟩,
                    fr.state)
              | some nxt => (⟨host, recurs, rlimit, some resp, all, false, nxt⟩, fr.state)

/-- Source `reportOn`: the hops of the walk, first to last, and the world after it.
The first argument bounds the number of invocations; `none` means it did not suffice. -/
def reportOn {σ : Type} (E : Env σ) : Nat → σ → GoString → Bool → Int →
    Option (List Hop × σ)
  | 0, _, _, _, _ => none
  | fuel + 1, s, host, recurs, rlimit =>
      match (reportOnStep E s host recurs rlimit).1.next with
      | none => some ([(reportOnStep E s host recurs rlimit).1],
          (reportOnStep E s host recurs rlimit).2)
      | some a =>
          match reportOn E fuel (reportOnStep E s host recurs rlimit).2 a.1 a.2.1 a.2.2 with
          | none => none
          | some r => some ((reportOnStep E s host recurs rlimit).1 :: r.1, r.2)

/-- The budget that `main` passes to `reportOn`. -/
def mainBudget : Int := 15

/-- Whether a walk ended in a run-time failure. -/
def walkFailed (hs : List Hop) : Bool := hs.any (fun h => h.failed)

/-- The loop of `main` over the command-line sources: one walk per source, each with a
fresh budget; a run-time failure ends the program. -/
def mainLoop {σ : Type} (E : Env σ) (fuel : Nat) : σ → List GoString → Bool →
    Option (List (List Hop) × σ)
  | s, [], _ => some ([], s)
  | s, host :: rest, recurs =>
      match reportOn E fuel s host recurs mainBudget with
      | none => none
      | some r =>
          if walkFailed r.1 then some ([r.1], r.2)
          else
            match mainLoop E fuel r.2 rest recurs with
            | none => none
            | some q => some (r.1 :: q.1, q.2)

/-! ## Observations on a run -/

/-- The hosts queried by a list of events, in order. -/
def queriesOf : List Event → List GoString
  | [] => []
  | .query h :: es => h :: queriesOf es
  | _ :: es => queriesOf es

/-- The addresses handed to the resolver by a list of events, in order. -/
def lookupsOf : List Event → List GoString
  | [] => []
  | .lookupAddr a :: es => a :: lookupsOf es
  | _ :: es => lookupsOf es

/-- The texts written to standard output by a list of events, in order. -/
def printedOf : List Event → List GoString
  | [] => []
  | .printf t :: es => t :: printedOf es
  | _ :: es => printedOf es

/-- All events of a walk, in order. -/
def walkEvents (hs : List Hop) : List Event := (hs.map (fun h => h.events)).flatten

/-- The contract of the resolver under which the name stripping cannot fail: the first
name of a successful reverse lookup is not the empty string. -/
def NoEmptyName {σ : Type} (E : Env σ) : Prop :=
  ∀ (s : σ) (a : GoString) (r0 : GoString) (rest : List GoString) (s1 : σ),
    E.lookupAddr s a = (.ok (r0 :: rest), s1) → r0 ≠ []

/-! ## Concrete worlds -/

/-- A reply with the given stratum and reference identifier, and nothing else set. -/
def replyOf (stratum refid : Nat) : Response :=
  ⟨stratum, refid, [], 0, [], [], [], [], [], [], [], [], []⟩

/-- A world with one server, `a`, at stratum 2 and synchronised to 10.0.0.1; every other
host, 10.0.0.1 included, does not answer; replies are valid and no name resolves. -/
def envChain : Env Unit where
  query := fun _ h =>
    if h = ascii "a" then (.ok (replyOf 2 0x0A000001), ()) else (.error (ascii "timeout"), ())
  validate := fun _ _ => none
  parseIP := fun _ => false
  lookupAddr := fun _ _ => (.error (ascii "no such host"), ())

/-- A world in which every host answers at stratum 2 and names 10.0.0.1 as its source:
the server 10.0.0.1 is its own upstream on every reply. -/
def envSelf : Env Unit where
  query := fun _ _ => (.ok (replyOf 2 0x0A000001), ())
  validate := fun _ _ => none
  parseIP := fun _ => false
  lookupAddr := fun _ _ => (.error (ascii "no such host"), ())

/-- A world in which every reply fails validation; every host answers at stratum 3 with
source 10.0.0.2, and the resolver knows every address as `ntp.example.`. -/
def envInvalid : Env Unit where
  query := fun _ _ => (.ok (replyOf 3 0x0A000002), ())
  validate := fun _ _ => some (ascii "server clock not fresh")
  parseIP := fun _ => true
  lookupAddr := fun _ _ => (.ok [ascii "ntp.example.", ascii "other.example."], ())

/-- A world whose resolver answers every reverse lookup with the single name `localhost`,
which has no trailing dot; every host answers at stratum 0 with source 127.0.0.1. -/
def envLocalhost : Env Unit where
  query := fun _ _ => (.ok (replyOf 0 0x7F000001), ())
  validate := fun _ _ => none
  parseIP := fun _ => true
  lookupAddr := fun _ _ => (.ok [ascii "localhost"], ())

/-- A world whose resolver answers every reverse lookup with the single empty name. -/
def envEmptyName : Env Unit where
  query := fun _ _ => (.ok (replyOf 2 0x0A000001), ())
  validate := fun _ _ => none
  parseIP := fun _ => true
  lookupAddr := fun _ _ => (.ok [[]], ())

/-- A world whose server refuses service: every reply is at stratum 0 with the kiss code
`RATE` as its reference identifier, and fails validation; the resolver knows every address
as `rate.example.`. -/
def envKiss : Env Unit where
  query := fun _ _ =>
    (.ok ⟨0, 0x52415445, ascii "RATE", 0, [], [], [], [], [], [], [], [], []⟩, ())
  validate := fun _ _ => some (ascii "kiss of death received")
  parseIP := fun _ => false
  lookupAddr := fun _ _ => (.ok [ascii "rate.example."], ())

/-! ## Statements -/

/-- The decision of one hop, with the budget test read as `budget > 0`: after a successful
query, the hop ends in a further call exactly when the flag is set, validation gave no
error, the budget is positive, the stratum is above 1 and the first byte is below 224. -/
def ContinuesIffPositive {σ : Type} (E : Env σ) (s : σ) (host : GoString) (recurs : Bool)
    (rlimit : Int) : Prop :=
  ∀ (resp : Response) (s1 : σ), E.query s host = (.ok resp, s1) →
    ((reportOnStep E s host recurs rlimit).1.next.isSome = true ↔
      (recurs = true ∧ E.validate (maybeHostname E s1 host).state resp = none
        ∧ 0 < rlimit ∧ 1 < resp.Stratum
        ∧ isReservedRange (refIDToBytes resp.ReferenceID) = some false))

/-! ## The decoder: lemmas -/

theorem byte_and_ff (x : Nat) : byte (x &&& 0xff) = x % 256 := by
  have h : x &&& 0xff = x % 2 ^ 8 := Nat.and_pow_two_sub_one_eq_mod x 8
  unfold byte
  rw [h]
  norm_num

theorem and_ff (x : Nat) : x &&& 0xff = x % 256 := by
  have h : x &&& 0xff = x % 2 ^ 8 := Nat.and_pow_two_sub_one_eq_mod x 8
  rw [h]
  norm_num

set_option maxRecDepth 100000 in
/-- On bytes, `fmtD` is the decimal numeral. -/
theorem fmtD_byte : ∀ n, n < 256 → isDecimalOf (fmtD n) n = true := by
  decide

theorem refIDToBytes_eq (r : Nat) :
    refIDToBytes r = [r / 2 ^ 24 % 256, r / 2 ^ 16 % 256, r / 2 ^ 8 % 256, r % 256] := by
  simp [refIDToBytes, List.enum, List.enumFrom, byte_and_ff, Nat.shiftRight_eq_div_pow,
    List.replicate]

theorem genAddr_refIDToBytes (r : Nat) :
    genAddr (refIDToBytes r) =
      some (fmtD (r / 2 ^ 24 % 256) ++ ascii "." ++ fmtD (r / 2 ^ 16 % 256) ++ ascii "."
        ++ fmtD (r / 2 ^ 8 % 256) ++ ascii "." ++ fmtD (r % 256)) := by
  rw [refIDToBytes_eq]
  rfl

theorem isReservedRange_refIDToBytes (r : Nat) :
    isReservedRange (refIDToBytes r) = some (decide (r / 2 ^ 24 % 256 ≥ 224)) := by
  rw [refIDToBytes_eq]
  rfl

theorem printableFrom_eq (bs : List Nat) (i : Nat) :
    printableFrom i bs = i + (bs.takeWhile (fun b => decide (0x20 ≤ b ∧ b ≤ 0x7E))).length := by
  induction bs generalizing i with
  | nil => simp [printableFrom]
  | cons b rest ih =>
      unfold printableFrom
      by_cases hb : b < 32 ∨ b > 126
      · have hn : ¬ (0x20 ≤ b ∧ b ≤ 0x7E) := by omega
        simp [hb, List.takeWhile, hn]
      · have hp : 0x20 ≤ b ∧ b ≤ 0x7E := by omega
        rw [if_neg hb, ih]
        simp [List.takeWhile, hp]
        omega

theorem printable_eq (bs : List Nat) :
    printable bs = (bs.takeWhile (fun b => decide (0x20 ≤ b ∧ b ≤ 0x7E))).length := by
  unfold printable
  rw [printableFrom_eq]
  simp

/-! ## Observations: lemmas -/

theorem queriesOf_append (a b : List Event) :
    queriesOf (a ++ b) = queriesOf a ++ queriesOf b := by
  induction a with
  | nil => rfl
  | cons e es ih => cases e <;> simp [queriesOf, ih]

theorem printedOf_append (a b : List Event) :
    printedOf (a ++ b) = printedOf a ++ printedOf b := by
  induction a with
  | nil => rfl
  | cons e es ih => cases e <;> simp [printedOf, ih]

theorem lookupsOf_append (a b : List Event) :
    lookupsOf (a ++ b) = lookupsOf a ++ lookupsOf b := by
  induction a with
  | nil => rfl
  | cons e es ih => cases e <;> simp [lookupsOf, ih]

theorem printedOf_map_printf (ls : List GoString) :
    printedOf (ls.map Event.printf) = ls := by
  induction ls with
  | nil => rfl
  | cons l ls ih => simp [printedOf, ih]

theorem queriesOf_map_printf (ls : List GoString) :
    queriesOf (ls.map Event.printf) = [] := by
  induction ls with
  | nil => rfl
  | cons l ls ih => simp [queriesOf, ih]

/-! ## The resolver adapter and `formatRefID`: lemmas -/

theorem sliceDropLast_isSome (x : GoString) (h : x ≠ []) :
    sliceDropLast x = some (x.take (x.length - 1)) := by
  unfold sliceDropLast
  have : x.length ≠ 0 := by
    intro h0
    exact h (List.length_eq_zero.mp h0)
  simp [this]

theorem maybeHostname_queries {σ : Type} (E : Env σ) (s : σ) (host : GoString) :
    queriesOf (maybeHostname E s host).events = []
      ∧ printedOf (maybeHostname E s host).events = [] := by
  unfold maybeHostname
  split
  · simp [queriesOf, printedOf]
  · split
    · simp [queriesOf, printedOf]
    · simp [queriesOf, printedOf]
    · split <;> simp [queriesOf, printedOf]

theorem maybeHostname_val {σ : Type} (E : Env σ) (hE : NoEmptyName E) (s : σ)
    (host : GoString) : ∃ ph, (maybeHostname E s host).val = some ph := by
  unfold maybeHostname
  split
  · exact ⟨_, rfl⟩
  · split
    · exact ⟨_, rfl⟩
    · exact ⟨_, rfl⟩
    · rename_i r0 rest s1 hl
      rw [sliceDropLast_isSome r0 (hE _ _ _ _ _ hl)]
      exact ⟨_, rfl⟩

theorem formatRefID_queries {σ : Type} (E : Env σ) (s : σ) (refid stratum : Nat) :
    queriesOf (formatRefID E s refid stratum).events = []
      ∧ printedOf (formatRefID E s refid stratum).events = [] := by
  unfold formatRefID
  simp only [genAddr_refIDToBytes, isReservedRange_refIDToBytes]
  split
  · split <;> simp [queriesOf, printedOf]
  · split
    · simp [queriesOf, printedOf]
    · simp [queriesOf, printedOf]
    · split
      · simp [queriesOf, printedOf]
      · simp [queriesOf, printedOf]
      · split <;> simp [queriesOf, printedOf]

theorem formatRefID_val {σ : Type} (E : Env σ) (hE : NoEmptyName E) (s : σ)
    (refid stratum : Nat) : ∃ src, (formatRefID E s refid stratum).val = some src := by
  unfold formatRefID
  simp only [genAddr_refIDToBytes, isReservedRange_refIDToBytes]
  split
  · split <;> exact ⟨_, rfl⟩
  · split
    · rename_i h
      simp at h
    · exact ⟨_, rfl⟩
    · split
      · exact ⟨_, rfl⟩
      · exact ⟨_, rfl⟩
      · rename_i r0 rest s1 hl
        rw [sliceDropLast_isSome r0 (hE _ _ _ _ _ hl)]
        exact ⟨_, rfl⟩

theorem printable_reserved (r : Nat)
    (h : isReservedRange (refIDToBytes r) = some true) : printable (refIDToBytes r) = 0 := by
  rw [isReservedRange_refIDToBytes] at h
  simp only [Option.some.injEq, decide_eq_true_eq] at h
  rw [refIDToBytes_eq]
  unfold printable printableFrom
  have : r / 2 ^ 24 % 256 < 32 ∨ r / 2 ^ 24 % 256 > 126 := by omega
  rw [if_pos this]

/-- With a first byte of 224 or more, `formatRefID` makes no lookup and returns the dotted
quad, at every stratum. -/
theorem formatRefID_reserved {σ : Type} (E : Env σ) (s : σ) (r stratum : Nat)
    (h : isReservedRange (refIDToBytes r) = some true) :
    (formatRefID E s r stratum).val = genAddr (refIDToBytes r)
      ∧ (formatRefID E s r stratum).events = [] := by
  have hp := printable_reserved r h
  unfold formatRefID
  simp only [genAddr_refIDToBytes, h, hp]
  split <;> simp

/-- At a stratum other than 1 and with a first byte below 224, `formatRefID` hands the
dotted quad to the resolver, and its value on a non-empty answer is the dotted quad, a
space and `x[:len(x)-1]` of the first name. -/
theorem formatRefID_lookup {σ : Type} (E : Env σ) (s : σ) (r stratum : Nat)
    (addr : GoString) (hs : stratum ≠ 1)
    (h : isReservedRange (refIDToBytes r) = some false)
    (ha : genAddr (refIDToBytes r) = some addr) :
    lookupsOf (formatRefID E s r stratum).events = [addr]
      ∧ ∀ (r0 : GoString) (rest : List GoString) (s1 : σ),
          E.lookupAddr s addr = (.ok (r0 :: rest), s1) →
            (formatRefID E s r stratum).val
              = (sliceDropLast r0).map (fun nm => addr ++ ascii " " ++ nm) := by
  unfold formatRefID
  simp only [ha, h, if_neg hs]
  constructor
  · split
    · simp [lookupsOf]
    · simp [lookupsOf]
    · split <;> simp [lookupsOf]
  · intro r0 rest s1 hl
    rw [hl]
    simp only
    split
    · rename_i hd
      rw [hd]
      rfl
    · rename_i nm hd
      rw [hd]
      rfl

/-- For a target that parses as an address, the value of `maybeHostname` on a non-empty
answer is `x[:len(x)-1]` of the first name. -/
theorem maybeHostname_name {σ : Type} (E : Env σ) (s : σ) (host : GoString)
    (r0 : GoString) (rest : List GoString) (s1 : σ)
    (hp : E.parseIP host = true)
    (hl : E.lookupAddr s host = (.ok (r0 :: rest), s1)) :
    (maybeHostname E s host).val = sliceDropLast r0 := by
  unfold maybeHostname
  simp only [hp, hl, Bool.true_eq_false, if_false]
  split
  · rename_i hd
    rw [hd]
  · rename_i nm hd
    rw [hd]

theorem sliceDropLast_append_one (nm : GoString) (b : Nat) :
    sliceDropLast (nm ++ [b]) = some nm := by
  unfold sliceDropLast
  simp

/-! ## The end of `reportOn`: lemmas -/

theorem continueTo_ne_none (recurs : Bool) (err : Option GoString) (rlimit : Int)
    (resp : Response) : continueTo recurs err rlimit resp ≠ none := by
  unfold continueTo
  simp only [genAddr_refIDToBytes, isReservedRange_refIDToBytes]
  split
  · simp
  · split
    · rename_i h
      simp at h
    · simp
    · simp

theorem continueTo_guard (recurs : Bool) (err : Option GoString) (rlimit : Int)
    (resp : Response) :
    (!recurs || err.isSome || rlimit == 0 || decide (resp.Stratum ≤ 1)) = false ↔
      (recurs = true ∧ err = none ∧ rlimit ≠ 0 ∧ 1 < resp.Stratum) := by
  cases recurs <;> cases err <;> simp

theorem continueTo_some_iff (recurs : Bool) (err : Option GoString) (rlimit : Int)
    (resp : Response) (a : GoString × Bool × Int) :
    continueTo recurs err rlimit resp = some (some a) ↔
      (recurs = true ∧ err = none ∧ rlimit ≠ 0 ∧ 1 < resp.Stratum
        ∧ isReservedRange (refIDToBytes resp.ReferenceID) = some false
        ∧ genAddr (refIDToBytes resp.ReferenceID) = some a.1
        ∧ a.2.1 = recurs ∧ a.2.2 = rlimit - 1) := by
  unfold continueTo
  dsimp only
  obtain ⟨a1, a2, a3⟩ := a
  generalize isReservedRange (refIDToBytes resp.ReferenceID) = ir
  generalize genAddr (refIDToBytes resp.ReferenceID) = ga
  cases hg : (!recurs || err.isSome || rlimit == 0 || decide (resp.Stratum ≤ 1))
  · have hc := (continueTo_guard recurs err rlimit resp).mp hg
    obtain ⟨c1, c2, c3, c4⟩ := hc
    rcases ir with _ | _ | _ <;> rcases ga with _ | g <;>
      simp [c1, c2, c3, c4, eq_comm]
  · have hc : ¬ (recurs = true ∧ err = none ∧ rlimit ≠ 0 ∧ 1 < resp.Stratum) := by
      intro hc
      have := (continueTo_guard recurs err rlimit resp).mpr hc
      rw [hg] at this
      exact Bool.noConfusion this
    simp only [if_true, Bool.true_eq_false]
    constructor
    · intro h
      simp at h
    · rintro ⟨c1, c2, c3, c4, _⟩
      exact absurd ⟨c1, c2, c3, c4⟩ hc

/-! ## One invocation of `reportOn`: lemmas -/

theorem step_args {σ : Type} (E : Env σ) (s : σ) (host : GoString) (recurs : Bool)
    (rlimit : Int) :
    (reportOnStep E s host recurs rlimit).1.host = host
      ∧ (reportOnStep E s host recurs rlimit).1.recurs = recurs
      ∧ (reportOnStep E s host recurs rlimit).1.rlimit = rlimit := by
  unfold reportOnStep
  split
  · exact ⟨rfl, rfl, rfl⟩
  · dsimp only
    split
    · exact ⟨rfl, rfl, rfl⟩
    · split
      · exact ⟨rfl, rfl, rfl⟩
      · split <;> exact ⟨rfl, rfl, rfl⟩

theorem step_queries {σ : Type} (E : Env σ) (s : σ) (host : GoString) (recurs : Bool)
    (rlimit : Int) :
    queriesOf (reportOnStep E s host recurs rlimit).1.events = [host] := by
  unfold reportOnStep
  split
  · simp [queriesOf]
  · rename_i resp s1 hq
    dsimp only
    have hm := (maybeHostname_queries E s1 host).1
    have hf := (formatRefID_queries E (maybeHostname E s1 host).state resp.ReferenceID
      resp.Stratum).1
    split
    · simp [queriesOf, hm]
    · split
      · split <;> split <;>
          simp [queriesOf, queriesOf_append, hm, hf, queriesOf_map_printf]
      · split <;> split <;> split <;> split <;>
          simp [queriesOf, queriesOf_append, hm, hf, queriesOf_map_printf]

theorem step_query_error {σ : Type} (E : Env σ) (s : σ) (host : GoString) (recurs : Bool)
    (rlimit : Int) (err : GoString) (s1 : σ) (hq : E.query s host = (.error err, s1)) :
    reportOnStep E s host recurs rlimit =
      (⟨host, recurs, rlimit, none,
        [.query host, .logf (ascii "error querying '" ++ host ++ ascii "': " ++ err)],
        false, none⟩, s1) := by
  unfold reportOnStep
  rw [hq]

theorem step_ok {σ : Type} (E : Env σ) (s : σ) (host : GoString) (recurs : Bool)
    (rlimit : Int) (resp : Response) (s1 : σ) (ph src : GoString)
    (nxt : Option (GoString × Bool × Int))
    (hq : E.query s host = (.ok resp, s1))
    (hm : (maybeHostname E s1 host).val = some ph)
    (hf : (formatRefID E (maybeHostname E s1 host).state resp.ReferenceID resp.Stratum).val
      = some src)
    (hc : continueTo recurs (E.validate (maybeHostname E s1 host).state resp) rlimit resp
      = some nxt) :
    (reportOnStep E s host recurs rlimit).1.reply = some resp
      ∧ (reportOnStep E s host recurs rlimit).1.failed = false
      ∧ (reportOnStep E s host recurs rlimit).1.next = nxt
      ∧ printedOf (reportOnStep E s host recurs rlimit).1.events =
          [headerLine host ph]
            ++ (match E.validate (maybeHostname E s1 host).state resp with
                | some e => [validityLine e]
                | none => [])
            ++ (if resp.KissCode ≠ [] then [kissLine resp.KissCode] else [])
            ++ [stratumLine resp, timeSourceLine src resp]
            ++ tailLines resp
            ++ (if resp.Leap ≠ 0 then [leapLine resp] else []) := by
  have hmp := (maybeHostname_queries E s1 host).2
  have hfp := (formatRefID_queries E (maybeHostname E s1 host).state resp.ReferenceID
      resp.Stratum).2
  unfold reportOnStep
  simp only [hq, hm, hf, hc, true_and]
  split <;> split <;> split <;>
    simp [printedOf, printedOf_append, hmp, hfp, tailLines]

theorem step_mh_failed {σ : Type} (E : Env σ) (s : σ) (host : GoString) (recurs : Bool)
    (rlimit : Int) (resp : Response) (s1 : σ)
    (hq : E.query s host = (.ok resp, s1))
    (hm : (maybeHostname E s1 host).val = none) :
    (reportOnStep E s host recurs rlimit).1.next = none
      ∧ (reportOnStep E s host recurs rlimit).1.failed = true := by
  unfold reportOnStep
  simp only [hq, hm, and_self]

theorem step_fr_failed {σ : Type} (E : Env σ) (s : σ) (host : GoString) (recurs : Bool)
    (rlimit : Int) (resp : Response) (s1 : σ) (ph : GoString)
    (hq : E.query s host = (.ok resp, s1))
    (hm : (maybeHostname E s1 host).val = some ph)
    (hf : (formatRefID E (maybeHostname E s1 host).state resp.ReferenceID resp.Stratum).val
      = none) :
    (reportOnStep E s host recurs rlimit).1.next = none
      ∧ (reportOnStep E s host recurs rlimit).1.failed = true := by
  unfold reportOnStep
  simp only [hq, hm, hf, and_self]

theorem step_next {σ : Type} (E : Env σ) (s : σ) (host : GoString) (recurs : Bool)
    (rlimit : Int) (a : GoString × Bool × Int)
    (h : (reportOnStep E s host recurs rlimit).1.next = some a) :
    ∃ resp s1, E.query s host = (.ok resp, s1)
      ∧ (reportOnStep E s host recurs rlimit).1.reply = some resp
      ∧ (reportOnStep E s host recurs rlimit).1.failed = false
      ∧ continueTo recurs (E.validate (maybeHostname E s1 host).state resp) rlimit resp
          = some (some a) := by
  rcases hq : E.query s host with ⟨err | resp, s1⟩
  · rw [step_query_error E s host recurs rlimit err s1 hq] at h
    simp at h
  · refine ⟨resp, s1, rfl, ?_⟩
    rcases hm : (maybeHostname E s1 host).val with _ | ph
    · rw [(step_mh_failed E s host recurs rlimit resp s1 hq hm).1] at h
      simp at h
    · rcases hf : (formatRefID E (maybeHostname E s1 host).state resp.ReferenceID
          resp.Stratum).val with _ | src
      · rw [(step_fr_failed E s host recurs rlimit resp s1 ph hq hm hf).1] at h
        simp at h
      · rcases hc : continueTo recurs (E.validate (maybeHostname E s1 host).state resp)
            rlimit resp with _ | nxt
        · exact absurd hc (continueTo_ne_none _ _ _ _)
        · have hs := step_ok E s host recurs rlimit resp s1 ph src nxt hq hm hf hc
          rw [hs.2.2.1] at h
          subst h
          exact ⟨hs.1, hs.2.1, rfl⟩

theorem step_reply {σ : Type} (E : Env σ) (s : σ) (host : GoString) (recurs : Bool)
    (rlimit : Int) (resp : Response) (s1 : σ) (hq : E.query s host = (.ok resp, s1)) :
    (reportOnStep E s host recurs rlimit).1.reply = some resp := by
  unfold reportOnStep
  simp only [hq]
  split
  · rfl
  · split
    · rfl
    · split <;> rfl

/-- A hop that does not fail at run time got a value from `maybeHostname` and from
`formatRefID`. -/
theorem step_not_failed_vals {σ : Type} (E : Env σ) (s : σ) (host : GoString)
    (recurs : Bool) (rlimit : Int) (resp : Response) (s1 : σ)
    (hq : E.query s host = (.ok resp, s1))
    (hok : (reportOnStep E s host recurs rlimit).1.failed = false) :
    ∃ ph src, (maybeHostname E s1 host).val = some ph
      ∧ (formatRefID E (maybeHostname E s1 host).state resp.ReferenceID resp.Stratum).val
          = some src := by
  rcases hm : (maybeHostname E s1 host).val with _ | ph
  · rw [(step_mh_failed E s host recurs rlimit resp s1 hq hm).2] at hok
    exact absurd hok (by decide)
  · rcases hf : (formatRefID E (maybeHostname E s1 host).state resp.ReferenceID
        resp.Stratum).val with _ | src
    · rw [(step_fr_failed E s host recurs rlimit resp s1 ph hq hm hf).2] at hok
      exact absurd hok (by decide)
    · exact ⟨ph, src, rfl, rfl⟩

/-- In a world whose resolver never returns an empty first name, no hop fails at run
time. -/
theorem step_not_failed {σ : Type} (E : Env σ) (hE : NoEmptyName E) (s : σ)
    (host : GoString) (recurs : Bool) (rlimit : Int) :
    (reportOnStep E s host recurs rlimit).1.failed = false := by
  rcases hq : E.query s host with ⟨err | resp, s1⟩
  · rw [step_query_error E s host recurs rlimit err s1 hq]
  · obtain ⟨ph, hm⟩ := maybeHostname_val E hE s1 host
    obtain ⟨src, hf⟩ := formatRefID_val E hE (maybeHostname E s1 host).state
      resp.ReferenceID resp.Stratum
    rcases hc : continueTo recurs (E.validate (maybeHostname E s1 host).state resp)
        rlimit resp with _ | nxt
    · exact absurd hc (continueTo_ne_none _ _ _ _)
    · exact (step_ok E s host recurs rlimit resp s1 ph src nxt hq hm hf hc).2.1

/-! ## The walk: lemmas -/

theorem reportOn_last {σ : Type} (E : Env σ) (fuel : Nat) (s : σ) (host : GoString)
    (recurs : Bool) (rlimit : Int)
    (h : (reportOnStep E s host recurs rlimit).1.next = none) :
    reportOn E (fuel + 1) s host recurs rlimit =
      some ([(reportOnStep E s host recurs rlimit).1],
        (reportOnStep E s host recurs rlimit).2) := by
  rw [reportOn]
  simp only [h]

theorem reportOn_more {σ : Type} (E : Env σ) (fuel : Nat) (s : σ) (host : GoString)
    (recurs : Bool) (rlimit : Int) (a : GoString × Bool × Int)
    (h : (reportOnStep E s host recurs rlimit).1.next = some a) :
    reportOn E (fuel + 1) s host recurs rlimit =
      match reportOn E fuel (reportOnStep E s host recurs rlimit).2 a.1 a.2.1 a.2.2 with
      | none => none
      | some r => some ((reportOnStep E s host recurs rlimit).1 :: r.1, r.2) := by
  rw [reportOn]
  simp only [h]

theorem walkEvents_cons (h : Hop) (hs : List Hop) :
    walkEvents (h :: hs) = h.events ++ walkEvents hs := by
  simp [walkEvents]

/-- Every invocation issues exactly one query, for its own host: the queries of a walk are
the hosts of its hops, in order. -/
theorem reportOn_queries {σ : Type} (E : Env σ) (fuel : Nat) :
    ∀ (s : σ) (host : GoString) (recurs : Bool) (rlimit : Int) (hops : List Hop) (s' : σ),
      reportOn E fuel s host recurs rlimit = some (hops, s') →
        queriesOf (walkEvents hops) = hops.map (fun h => h.host) := by
  induction fuel with
  | zero =>
      intro s host recurs rlimit hops s' h
      simp [reportOn] at h
  | succ f ih =>
      intro s host recurs rlimit hops s' h
      rcases hn : (reportOnStep E s host recurs rlimit).1.next with _ | a
      · rw [reportOn_last E f s host recurs rlimit hn] at h
        simp only [Option.some.injEq, Prod.mk.injEq] at h
        rw [← h.1]
        simp [walkEvents, step_queries, (step_args E s host recurs rlimit).1]
      · rw [reportOn_more E f s host recurs rlimit a hn] at h
        rcases hr : reportOn E f (reportOnStep E s host recurs rlimit).2 a.1 a.2.1 a.2.2
          with _ | r
        · rw [hr] at h
          simp at h
        · rw [hr] at h
          simp only [Option.some.injEq, Prod.mk.injEq] at h
          rw [← h.1, walkEvents_cons, queriesOf_append, step_queries,
            ih _ _ _ _ r.1 r.2 hr]
          simp [(step_args E s host recurs rlimit).1]

/-- With a budget `n ≥ 0` and at least `n + 1` invocations allowed, the walk returns, with
at most `n + 1` hops. -/
theorem reportOn_bounded {σ : Type} (E : Env σ) (n : Nat) :
    ∀ (k : Nat) (s : σ) (host : GoString) (recurs : Bool),
      ∃ hops s', reportOn E (n + 1 + k) s host recurs (n : Int) = some (hops, s')
        ∧ hops.length ≤ n + 1 := by
  induction n with
  | zero =>
      intro k s host recurs
      have hn : (reportOnStep E s host recurs ((0 : Nat) : Int)).1.next = none := by
        rcases hx : (reportOnStep E s host recurs ((0 : Nat) : Int)).1.next with _ | a
        · rfl
        · obtain ⟨resp, s1, _, _, _, hc⟩ := step_next E s host recurs _ a hx
          have := ((continueTo_some_iff _ _ _ _ _).mp hc).2.2.1
          simp at this
      refine ⟨[(reportOnStep E s host recurs ((0 : Nat) : Int)).1],
        (reportOnStep E s host recurs ((0 : Nat) : Int)).2, ?_, ?_⟩
      · rw [show 0 + 1 + k = k + 1 by omega]
        exact reportOn_last E k s host recurs _ hn
      · simp
  | succ m ih =>
      intro k s host recurs
      rw [show m + 1 + 1 + k = (m + 1 + k) + 1 by omega]
      rcases hx : (reportOnStep E s host recurs ((m + 1 : Nat) : Int)).1.next with _ | a
      · refine ⟨_, _, reportOn_last E _ s host recurs _ hx, ?_⟩
        simp
      · obtain ⟨resp, s1, _, _, _, hc⟩ := step_next E s host recurs _ a hx
        have hb := ((continueTo_some_iff _ _ _ _ _).mp hc).2.2.2.2.2.2.2
        have hb' : a.2.2 = (m : Int) := by
          rw [hb]
          push_cast
          ring
        obtain ⟨hops, s', hr, hl⟩ := ih k (reportOnStep E s host recurs
          ((m + 1 : Nat) : Int)).2 a.1 a.2.1
        refine ⟨(reportOnStep E s host recurs ((m + 1 : Nat) : Int)).1 :: hops, s', ?_, ?_⟩
        · rw [reportOn_more E _ s host recurs _ a hx, hb', hr]
        · simp
          omega

/-- More allowed invocations do not change a walk that returned. -/
theorem reportOn_fuel_mono {σ : Type} (E : Env σ) (fuel : Nat) :
    ∀ (k : Nat) (s : σ) (host : GoString) (recurs : Bool) (rlimit : Int)
      (r : List Hop × σ),
      reportOn E fuel s host recurs rlimit = some r →
        reportOn E (fuel + k) s host recurs rlimit = some r := by
  induction fuel with
  | zero =>
      intro k s host recurs rlimit r h
      simp [reportOn] at h
  | succ f ih =>
      intro k s host recurs rlimit r h
      rw [show f + 1 + k = (f + k) + 1 by omega]
      rcases hn : (reportOnStep E s host recurs rlimit).1.next with _ | a
      · rw [reportOn_last E f s host recurs rlimit hn] at h
        rw [reportOn_last E (f + k) s host recurs rlimit hn]
        exact h
      · rw [reportOn_more E f s host recurs rlimit a hn] at h
        rw [reportOn_more E (f + k) s host recurs rlimit a hn]
        rcases hr : reportOn E f (reportOnStep E s host recurs rlimit).2 a.1 a.2.1 a.2.2
          with _ | q
        · rw [hr] at h
          simp at h
        · rw [ih k _ _ _ _ q hr]
          rw [hr] at h
          exact h

theorem step_no_follow {σ : Type} (E : Env σ) (s : σ) (host : GoString) (rlimit : Int) :
    (reportOnStep E s host false rlimit).1.next = none := by
  rcases hx : (reportOnStep E s host false rlimit).1.next with _ | a
  · rfl
  · obtain ⟨resp, s1, _, _, _, hc⟩ := step_next E s host false rlimit a hx
    have := ((continueTo_some_iff _ _ _ _ _).mp hc).1
    simp at this

/-- The shape of a walk: budgets count down by one per hop, the flag is passed on, and each
further hop queries the dotted quad of the reply before it. -/
theorem reportOn_chain {σ : Type} (E : Env σ) (fuel : Nat) :
    ∀ (s : σ) (host : GoString) (recurs : Bool) (n : Int) (hops : List Hop) (s' : σ),
      reportOn E fuel s host recurs n = some (hops, s') →
        ∀ (i : Nat) (h : Hop), hops[i]? = some h →
          h.rlimit = n - (i : Int) ∧ h.recurs = recurs ∧ (i = 0 → h.host = host)
            ∧ ∀ (h' : Hop), hops[i + 1]? = some h' →
                ∃ resp, h.reply = some resp
                  ∧ genAddr (refIDToBytes resp.ReferenceID) = some h'.host
                  ∧ h.next = some (h'.host, recurs, n - (i : Int) - 1) := by
  induction fuel with
  | zero =>
      intro s host recurs n hops s' hr
      simp [reportOn] at hr
  | succ f ih =>
      intro s host recurs n hops s' hr i h hi
      obtain ⟨ha1, ha2, ha3⟩ := step_args E s host recurs n
      rcases hn : (reportOnStep E s host recurs n).1.next with _ | a
      · rw [reportOn_last E f s host recurs n hn] at hr
        simp only [Option.some.injEq, Prod.mk.injEq] at hr
        rw [← hr.1] at hi ⊢
        cases i with
        | zero =>
            simp only [List.getElem?_cons_zero, Option.some.injEq] at hi
            subst hi
            refine ⟨by simp [ha3], ha2, fun _ => ha1, ?_⟩
            intro h' hh
            simp at hh
        | succ j => simp at hi
      · rw [reportOn_more E f s host recurs n a hn] at hr
        rcases hq : reportOn E f (reportOnStep E s host recurs n).2 a.1 a.2.1 a.2.2
          with _ | r
        · rw [hq] at hr
          simp at hr
        · rw [hq] at hr
          simp only [Option.some.injEq, Prod.mk.injEq] at hr
          obtain ⟨resp, s1, _, hrep, _, hc⟩ := step_next E s host recurs n a hn
          obtain ⟨_, _, _, _, _, hg, hb1, hb2⟩ := (continueTo_some_iff _ _ _ _ _).mp hc
          have hrest := ih _ _ _ _ r.1 r.2 hq
          rw [← hr.1] at hi ⊢
          cases i with
          | zero =>
              simp only [List.getElem?_cons_zero, Option.some.injEq] at hi
              subst hi
              refine ⟨by simp [ha3], ha2, fun _ => ha1, ?_⟩
              intro h' hh
              simp only [zero_add, List.getElem?_cons_succ] at hh
              have h0 := (hrest 0 h' hh).2.2.1 rfl
              refine ⟨resp, hrep, ?_, ?_⟩
              · rw [h0]
                exact hg
              · rw [hn, h0]
                simp only [Nat.cast_zero, sub_zero, Option.some.injEq]
                rw [← hb1, ← hb2]
          | succ j =>
              simp only [List.getElem?_cons_succ] at hi
              obtain ⟨k1, k2, _, k4⟩ := hrest j h hi
              refine ⟨?_, ?_, ?_, ?_⟩
              · rw [k1, hb2]
                push_cast
                ring
              · rw [k2, hb1]
              · intro hz
                omega
              · intro h' hh
                simp only [List.getElem?_cons_succ] at hh
                obtain ⟨resp', q1, q2, q3⟩ := k4 h' hh
                refine ⟨resp', q1, q2, ?_⟩
                rw [q3, hb1, hb2]
                push_cast
                simp only [Option.some.injEq, Prod.mk.injEq, true_and]
                ring

/-- Every hop of a walk is an invocation of `reportOn` of its own, and the walk from it is
the rest of the walk. -/
theorem reportOn_suffix {σ : Type} (E : Env σ) (fuel : Nat) :
    ∀ (s : σ) (host : GoString) (recurs : Bool) (n : Int) (hops : List Hop) (s' : σ),
      reportOn E fuel s host recurs n = some (hops, s') →
        ∀ (i : Nat) (h : Hop), hops[i]? = some h →
          ∃ (f : Nat) (si : σ),
            h = (reportOnStep E si h.host recurs (n - (i : Int))).1
              ∧ reportOn E f si h.host recurs (n - (i : Int)) = some (hops.drop i, s') := by
  induction fuel with
  | zero =>
      intro s host recurs n hops s' hr
      simp [reportOn] at hr
  | succ f ih =>
      intro s host recurs n hops s' hr i h hi
      cases i with
      | zero =>
          have h0 := (reportOn_chain E (f + 1) s host recurs n hops s' hr 0 h hi).2.2.1 rfl
          refine ⟨f + 1, s, ?_, ?_⟩
          · rw [h0]
            simp only [Nat.cast_zero, sub_zero]
            rcases hn : (reportOnStep E s host recurs n).1.next with _ | a
            · rw [reportOn_last E f s host recurs n hn] at hr
              simp only [Option.some.injEq, Prod.mk.injEq] at hr
              rw [← hr.1] at hi
              simpa using hi.symm
            · rw [reportOn_more E f s host recurs n a hn] at hr
              split at hr
              · simp at hr
              · simp only [Option.some.injEq, Prod.mk.injEq] at hr
                rw [← hr.1] at hi
                simpa using hi.symm
          · rw [h0]
            simpa using hr
      | succ j =>
          rcases hn : (reportOnStep E s host recurs n).1.next with _ | a
          · rw [reportOn_last E f s host recurs n hn] at hr
            simp only [Option.some.injEq, Prod.mk.injEq] at hr
            rw [← hr.1] at hi
            simp at hi
          · rw [reportOn_more E f s host recurs n a hn] at hr
            rcases hq : reportOn E f (reportOnStep E s host recurs n).2 a.1 a.2.1 a.2.2
              with _ | r
            · rw [hq] at hr
              simp at hr
            · rw [hq] at hr
              simp only [Option.some.injEq, Prod.mk.injEq] at hr
              obtain ⟨resp, s1, _, _, _, hc⟩ := step_next E s host recurs n a hn
              obtain ⟨_, _, _, _, _, _, hb1, hb2⟩ := (continueTo_some_iff _ _ _ _ _).mp hc
              rw [← hr.1] at hi ⊢
              simp only [List.getElem?_cons_succ] at hi
              obtain ⟨g, si, e1, e2⟩ := ih _ _ _ _ r.1 r.2 hq j h hi
              have hb : a.2.2 - (j : Int) = n - ((j + 1 : Nat) : Int) := by
                rw [hb2]
                push_cast
                ring
              rw [hb1, hb] at e1 e2
              refine ⟨g, si, e1, ?_⟩
              rw [e2, ← hr.2]
              simp

/-! ## Identifier decoder: the claims -/

/-- C3: for every 32-bit `r`, `refIDToBytes r` is the four bytes `(r >> 24) & 0xff`,
`(r >> 16) & 0xff`, `(r >> 8) & 0xff`, `r & 0xff`, each below 256 and with
`r = b0 * 2^24 + b1 * 2^16 + b2 * 2^8 + b3`; `genAddr` of them is the `%d` renderings of
the four bytes joined by dots, most significant first, `asIP r` is the same string, and
each rendering is the decimal numeral of its byte. -/
theorem C3_dotted_quad (r : Nat) (hr : r < 2 ^ 32) :
    refIDToBytes r
        = [(r >>> 24) &&& 0xff, (r >>> 16) &&& 0xff, (r >>> 8) &&& 0xff, r &&& 0xff]
      ∧ ((r >>> 24) &&& 0xff < 256 ∧ (r >>> 16) &&& 0xff < 256
          ∧ (r >>> 8) &&& 0xff < 256 ∧ r &&& 0xff < 256)
      ∧ r = ((r >>> 24) &&& 0xff) * 2 ^ 24 + ((r >>> 16) &&& 0xff) * 2 ^ 16
            + ((r >>> 8) &&& 0xff) * 2 ^ 8 + (r &&& 0xff)
      ∧ genAddr (refIDToBytes r)
          = some (fmtD ((r >>> 24) &&& 0xff) ++ ascii "." ++ fmtD ((r >>> 16) &&& 0xff)
              ++ ascii "." ++ fmtD ((r >>> 8) &&& 0xff) ++ ascii "." ++ fmtD (r &&& 0xff))
      ∧ some (asIP r) = genAddr (refIDToBytes r)
      ∧ (isDecimalOf (fmtD ((r >>> 24) &&& 0xff)) ((r >>> 24) &&& 0xff) = true
          ∧ isDecimalOf (fmtD ((r >>> 16) &&& 0xff)) ((r >>> 16) &&& 0xff) = true
          ∧ isDecimalOf (fmtD ((r >>> 8) &&& 0xff)) ((r >>> 8) &&& 0xff) = true
          ∧ isDecimalOf (fmtD (r &&& 0xff)) (r &&& 0xff) = true) := by
  have e24 : (r >>> 24) &&& 0xff = r / 2 ^ 24 % 256 := by
    rw [and_ff, Nat.shiftRight_eq_div_pow]
  have e16 : (r >>> 16) &&& 0xff = r / 2 ^ 16 % 256 := by
    rw [and_ff, Nat.shiftRight_eq_div_pow]
  have e8 : (r >>> 8) &&& 0xff = r / 2 ^ 8 % 256 := by
    rw [and_ff, Nat.shiftRight_eq_div_pow]
  have e0 : r &&& 0xff = r % 256 := and_ff r
  refine ⟨?_, ?_, ?_, ?_, ?_, ?_⟩
  · rw [e24, e16, e8, e0]
    exact refIDToBytes_eq r
  · rw [e24, e16, e8, e0]
    omega
  · rw [e24, e16, e8, e0]
    omega
  · rw [e24, e16, e8, e0]
    exact genAddr_refIDToBytes r
  · rw [genAddr_refIDToBytes]
    unfold asIP
    simp only [e24, e16, e8, e0]
  · rw [e24, e16, e8, e0]
    exact ⟨fmtD_byte _ (Nat.mod_lt _ (by decide)), fmtD_byte _ (Nat.mod_lt _ (by decide)),
      fmtD_byte _ (Nat.mod_lt _ (by decide)), fmtD_byte _ (Nat.mod_lt _ (by decide))⟩

/-- C3, at the identifier 0x50505300. -/
theorem C3_dotted_quad_witness :
    (0x50505300 : Nat) < 2 ^ 32
      ∧ genAddr (refIDToBytes 0x50505300) = some (ascii "80.80.83.0")
      ∧ asIP 0x50505300 = ascii "80.80.83.0"
      ∧ some (asIP 0x50505300) = genAddr (refIDToBytes 0x50505300) :=
  ⟨by decide, by decide, by decide,
    (C3_dotted_quad 0x50505300 (by decide)).2.2.2.2.1⟩

/-- C4: at stratum 1, with `k = printable (refIDToBytes r)`, `k` is the length of the
longest run of bytes in 0x20..0x7E at the start of the four bytes, and `formatRefID r 1`
is the dotted quad followed by `" ."`, the first `k` bytes and `"."` when `k > 0`, and the
dotted quad alone when `k = 0`; no lookup is made. The bytes 50 50 53 00 give
`80.80.83.0 .PPS.` and the bytes 01 02 03 04 give `1.2.3.4`. -/
theorem C4_stratum_one_label {σ : Type} (E : Env σ) (s : σ) (r : Nat) :
    printable (refIDToBytes r)
        = ((refIDToBytes r).takeWhile (fun b => decide (0x20 ≤ b ∧ b ≤ 0x7E))).length
      ∧ (∃ addr, genAddr (refIDToBytes r) = some addr
          ∧ (formatRefID E s r 1).val =
              some (if 0 < printable (refIDToBytes r)
                then addr ++ ascii " ." ++ (refIDToBytes r).take (printable (refIDToBytes r))
                  ++ ascii "."
                else addr))
      ∧ (formatRefID E s r 1).events = []
      ∧ (refIDToBytes 0x50505300 = [0x50, 0x50, 0x53, 0x00]
          ∧ printable (refIDToBytes 0x50505300) = 3
          ∧ (formatRefID E s 0x50505300 1).val = some (ascii "80.80.83.0 .PPS."))
      ∧ (refIDToBytes 0x01020304 = [0x01, 0x02, 0x03, 0x04]
          ∧ printable (refIDToBytes 0x01020304) = 0
          ∧ (formatRefID E s 0x01020304 1).val = some (ascii "1.2.3.4")) := by
  have hval : ∀ x : Nat, ∃ addr, genAddr (refIDToBytes x) = some addr
      ∧ (formatRefID E s x 1).val =
          some (if 0 < printable (refIDToBytes x)
            then addr ++ ascii " ." ++ (refIDToBytes x).take (printable (refIDToBytes x))
              ++ ascii "."
            else addr) := by
    intro x
    refine ⟨_, genAddr_refIDToBytes x, ?_⟩
    unfold formatRefID
    simp only [genAddr_refIDToBytes, if_true]
    split <;> rfl
  refine ⟨printable_eq _, hval r, ?_, ⟨by decide, by decide, ?_⟩, ⟨by decide, by decide, ?_⟩⟩
  · unfold formatRefID
    simp only [genAddr_refIDToBytes, if_true]
    split <;> rfl
  · obtain ⟨addr, h1, h2⟩ := hval 0x50505300
    rw [h2]
    have ha : addr = ascii "80.80.83.0" := by
      have : genAddr (refIDToBytes 0x50505300) = some (ascii "80.80.83.0") := by decide
      rw [this] at h1
      exact (Option.some.inj h1).symm
    subst ha
    decide
  · obtain ⟨addr, h1, h2⟩ := hval 0x01020304
    rw [h2]
    have ha : addr = ascii "1.2.3.4" := by
      have : genAddr (refIDToBytes 0x01020304) = some (ascii "1.2.3.4") := by decide
      rw [this] at h1
      exact (Option.some.inj h1).symm
    subst ha
    decide

/-- C9: for every 32-bit `r`, the reserved-range test on `refIDToBytes r` is the test
`b0 ≥ 224` on the first byte, and it holds exactly when `r ≥ 0xE0000000`; it fails for
0xDFFFFFFF, holds for 0xE0000000, and two identifiers with the same first byte get the
same answer. -/
theorem C9_reserved_range (r : Nat) (hr : r < 2 ^ 32) :
    (refIDToBytes r).head? = some ((r >>> 24) &&& 0xff)
      ∧ isReservedRange (refIDToBytes r) = some (decide ((r >>> 24) &&& 0xff ≥ 224))
      ∧ isReservedRange (refIDToBytes r) = some (decide (0xE0000000 ≤ r))
      ∧ isReservedRange (refIDToBytes 0xDFFFFFFF) = some false
      ∧ isReservedRange (refIDToBytes 0xE0000000) = some true
      ∧ (∀ r2 : Nat, (r2 >>> 24) &&& 0xff = (r >>> 24) &&& 0xff →
          isReservedRange (refIDToBytes r2) = isReservedRange (refIDToBytes r)) := by
  have e24 : ∀ x : Nat, (x >>> 24) &&& 0xff = x / 2 ^ 24 % 256 := by
    intro x
    rw [and_ff, Nat.shiftRight_eq_div_pow]
  refine ⟨?_, ?_, ?_, by decide, by decide, ?_⟩
  · rw [refIDToBytes_eq, e24]
    rfl
  · rw [isReservedRange_refIDToBytes, e24]
  · rw [isReservedRange_refIDToBytes]
    congr 1
    rw [decide_eq_decide]
    omega
  · intro r2 h2
    rw [isReservedRange_refIDToBytes, isReservedRange_refIDToBytes, ← e24, ← e24, h2]

/-- C9, at the identifier 0xE0000001. -/
theorem C9_reserved_range_witness :
    (0xE0000001 : Nat) < 2 ^ 32
      ∧ isReservedRange (refIDToBytes 0xE0000001) = some (decide (0xE0000000 ≤ 0xE0000001)) :=
  ⟨by decide, (C9_reserved_range 0xE0000001 (by decide)).2.2.1⟩

/-! ## Chain walker: the claims -/

/-- C1: for every world, host and follow flag, and every budget `n ≥ 0`, `reportOn`
returns as soon as `n + 1` invocations are allowed, with at most `n + 1` hops and at most
`n + 1` queries; with the budget 15 of `main`, a walk has at most 16 hops, and so has
every walk of the loop of `main`. A server that names itself as its upstream on every
reply (world `envSelf`) is walked for exactly 16 hops. -/
theorem C1_walk_bounded {σ : Type} (E : Env σ) (s : σ) (host : GoString) (recurs : Bool)
    (n k : Nat) :
    (∃ hops s', reportOn E (n + 1 + k) s host recurs (n : Int) = some (hops, s')
        ∧ hops.length ≤ n + 1 ∧ (queriesOf (walkEvents hops)).length ≤ n + 1)
      ∧ (∃ hops s', reportOn E (16 + k) s host recurs mainBudget = some (hops, s')
        ∧ hops.length ≤ 16 ∧ (queriesOf (walkEvents hops)).length ≤ 16)
      ∧ (∀ args : List GoString, ∃ walks s', mainLoop E (16 + k) s args recurs
          = some (walks, s') ∧ ∀ w ∈ walks, w.length ≤ 16)
      ∧ (reportOn envSelf 16 () (ascii "10.0.0.1") true mainBudget).map
          (fun r => r.1.length) = some 16 := by
  refine ⟨?_, ?_, ?_, by decide⟩
  · obtain ⟨hops, s', hr, hl⟩ := reportOn_bounded E n k s host recurs
    refine ⟨hops, s', hr, hl, ?_⟩
    rw [reportOn_queries E _ _ _ _ _ hops s' hr]
    simpa using hl
  · obtain ⟨hops, s', hr, hl⟩ := reportOn_bounded E 15 k s host recurs
    refine ⟨hops, s', hr, hl, ?_⟩
    have hr' : reportOn E (15 + 1 + k) s host recurs ((15 : Nat) : Int) = some (hops, s') := hr
    rw [reportOn_queries E _ _ _ _ _ hops s' hr']
    simpa using hl
  · intro args
    induction args generalizing s with
    | nil => exact ⟨[], s, rfl, by simp⟩
    | cons a rest ih =>
        obtain ⟨hops, s1, hr, hl⟩ := reportOn_bounded E 15 k s a recurs
        have hr' : reportOn E (16 + k) s a recurs mainBudget = some (hops, s1) := hr
        unfold mainLoop
        simp only [hr']
        by_cases hf : walkFailed hops = true
        · refine ⟨[hops], s1, by simp [hf], ?_⟩
          intro w hw
          simp only [List.mem_singleton] at hw
          subst hw
          exact hl
        · obtain ⟨walks, s2, hm, hw⟩ := ih s1
          refine ⟨hops :: walks, s2, by simp [hf, hm], ?_⟩
          intro w hmem
          rcases List.mem_cons.mp hmem with h1 | h1
          · subst h1
            exact hl
          · exact hw w h1

/-- C2, refuted at the budget -1: in the world `envChain`, the hop for `a` with the flag
set and budget -1 gets a valid stratum-2 reply naming 10.0.0.1, and the walk goes on to
query 10.0.0.1 with budget -2, although -1 is not positive. -/
theorem C2_counterexample :
    (reportOnStep envChain () (ascii "a") true (-1)).1.next
        = some (ascii "10.0.0.1", true, -2)
      ∧ (reportOn envChain 2 () (ascii "a") true (-1)).map
          (fun r => queriesOf (walkEvents r.1)) = some [ascii "a", ascii "10.0.0.1"]
      ∧ ¬ ContinuesIffPositive envChain () (ascii "a") true (-1) := by
  refine ⟨by decide, by decide, ?_⟩
  intro h
  have h1 := (h (replyOf 2 0x0A000001) () rfl).mp (by decide)
  exact absurd h1.2.2.1 (by decide)

/-- C2, amended: for every hop whose query succeeded and which does not fail at run time,
and for every integer budget, the hop ends in a further call exactly when the flag is set,
validation gave no error, the budget is not 0, the stratum is above 1 and the first byte
is below 224; for a budget that is not negative, "not 0" is "positive". A further call is
a further query: a walk that returned has more than one query exactly in that case. A
first byte of 224 or more never leads to a further call. -/
theorem C2_continue_iff {σ : Type} (E : Env σ) (s : σ) (host : GoString) (recurs : Bool)
    (rlimit : Int) (resp : Response) (s1 : σ)
    (hq : E.query s host = (.ok resp, s1))
    (hok : (reportOnStep E s host recurs rlimit).1.failed = false) :
    ((reportOnStep E s host recurs rlimit).1.next.isSome = true ↔
        (recurs = true ∧ E.validate (maybeHostname E s1 host).state resp = none
          ∧ rlimit ≠ 0 ∧ 1 < resp.Stratum
          ∧ isReservedRange (refIDToBytes resp.ReferenceID) = some false))
      ∧ (0 ≤ rlimit → (rlimit ≠ 0 ↔ 0 < rlimit))
      ∧ (∀ (fuel : Nat) (hops : List Hop) (s' : σ),
          reportOn E fuel s host recurs rlimit = some (hops, s') →
            (1 < (queriesOf (walkEvents hops)).length ↔
              (reportOnStep E s host recurs rlimit).1.next.isSome = true))
      ∧ (isReservedRange (refIDToBytes resp.ReferenceID) = some true →
          (reportOnStep E s host recurs rlimit).1.next = none) := by
  have key : ∀ a, (reportOnStep E s host recurs rlimit).1.next = some a →
      continueTo recurs (E.validate (maybeHostname E s1 host).state resp) rlimit resp
        = some (some a) := by
    intro a ha
    obtain ⟨resp', s1', hq', _, _, hc⟩ := step_next E s host recurs rlimit a ha
    rw [hq] at hq'
    simp only [Prod.mk.injEq, Except.ok.injEq] at hq'
    obtain ⟨e1, e2⟩ := hq'
    subst e1
    subst e2
    exact hc
  refine ⟨⟨?_, ?_⟩, ?_, ?_, ?_⟩
  · intro hs
    obtain ⟨a, ha⟩ := Option.isSome_iff_exists.mp hs
    obtain ⟨c1, c2, c3, c4, c5, _⟩ := (continueTo_some_iff _ _ _ _ _).mp (key a ha)
    exact ⟨c1, c2, c3, c4, c5⟩
  · rintro ⟨c1, c2, c3, c4, c5⟩
    rcases hm : (maybeHostname E s1 host).val with _ | ph
    · rw [(step_mh_failed E s host recurs rlimit resp s1 hq hm).2] at hok
      exact absurd hok (by decide)
    · rcases hf : (formatRefID E (maybeHostname E s1 host).state resp.ReferenceID
          resp.Stratum).val with _ | src
      · rw [(step_fr_failed E s host recurs rlimit resp s1 ph hq hm hf).2] at hok
        exact absurd hok (by decide)
      · obtain ⟨addr, hg⟩ : ∃ addr, genAddr (refIDToBytes resp.ReferenceID) = some addr :=
          ⟨_, genAddr_refIDToBytes _⟩
        have hc : continueTo recurs (E.validate (maybeHostname E s1 host).state resp)
            rlimit resp = some (some (addr, recurs, rlimit - 1)) :=
          (continueTo_some_iff _ _ _ _ _).mpr ⟨c1, c2, c3, c4, c5, hg, rfl, rfl⟩
        rw [(step_ok E s host recurs rlimit resp s1 ph src _ hq hm hf hc).2.2.1]
        rfl
  · intro h0
    constructor
    · intro h1
      omega
    · intro h1
      omega
  · intro fuel hops s' hr
    rw [reportOn_queries E fuel s host recurs rlimit hops s' hr, List.length_map]
    cases fuel with
    | zero => simp [reportOn] at hr
    | succ f =>
        rcases hn : (reportOnStep E s host recurs rlimit).1.next with _ | a
        · rw [reportOn_last E f s host recurs rlimit hn] at hr
          simp only [Option.some.injEq, Prod.mk.injEq] at hr
          rw [← hr.1]
          simp
        · rw [reportOn_more E f s host recurs rlimit a hn] at hr
          rcases hx : reportOn E f (reportOnStep E s host recurs rlimit).2 a.1 a.2.1 a.2.2
            with _ | r
          · rw [hx] at hr
            simp at hr
          · rw [hx] at hr
            simp only [Option.some.injEq, Prod.mk.injEq] at hr
            rw [← hr.1]
            have hne : r.1 ≠ [] := by
              intro he
              cases f with
              | zero => simp [reportOn] at hx
              | succ g =>
                  rcases hy : (reportOnStep E (reportOnStep E s host recurs rlimit).2
                      a.1 a.2.1 a.2.2).1.next with _ | b
                  · rw [reportOn_last E g _ _ _ _ hy] at hx
                    simp only [Option.some.injEq] at hx
                    rw [← hx] at he
                    simp at he
                  · rw [reportOn_more E g _ _ _ _ b hy] at hx
                    split at hx
                    · simp at hx
                    · simp only [Option.some.injEq] at hx
                      rw [← hx] at he
                      simp at he
            have : 0 < r.1.length := List.length_pos.mpr hne
            simp
            omega
  · intro hres
    rcases hn : (reportOnStep E s host recurs rlimit).1.next with _ | a
    · rfl
    · have hc := (continueTo_some_iff _ _ _ _ _).mp (key a hn)
      rw [hres] at hc
      simp at hc

/-- C2 amended, at the hop of `a` in the world `envChain` with budget -1. -/
theorem C2_continue_iff_witness :
    envChain.query () (ascii "a") = (.ok (replyOf 2 0x0A000001), ())
      ∧ (reportOnStep envChain () (ascii "a") true (-1)).1.failed = false
      ∧ ((reportOnStep envChain () (ascii "a") true (-1)).1.next.isSome = true ↔
          (true = true
            ∧ envChain.validate (maybeHostname envChain () (ascii "a")).state
                (replyOf 2 0x0A000001) = none
            ∧ (-1 : Int) ≠ 0 ∧ 1 < (replyOf 2 0x0A000001).Stratum
            ∧ isReservedRange (refIDToBytes (replyOf 2 0x0A000001).ReferenceID)
                = some false)) :=
  ⟨rfl, by decide,
    (C2_continue_iff envChain () (ascii "a") true (-1) (replyOf 2 0x0A000001) ()
      rfl (by decide)).1⟩

/-- C5: when the query of a hop succeeds and `Validate` returns an error, the hop (unless
it stops in a run-time failure) prints, in order, the header, the validity-problem line,
the go-away line if there is a kiss code, then Stratum, Time Source, Time at xmit, RTT,
Precision, MinError, Clock updated, Root delay, Root dispersion, local root distance and
local adjustment, and the leap line if the leap indicator is not 0; it ends in no further
call, so the walk from it is this hop alone, with its one query, whatever the flag, the
budget, the stratum and the identifier. -/
theorem C5_invalid_reply_reported {σ : Type} (E : Env σ) (s : σ)
    (host : GoString) (recurs : Bool) (rlimit : Int) (resp : Response) (s1 : σ)
    (e : GoString)
    (hq : E.query s host = (.ok resp, s1))
    (hv : E.validate (maybeHostname E s1 host).state resp = some e)
    (hok : (reportOnStep E s host recurs rlimit).1.failed = false) :
    ∃ ph src, (maybeHostname E s1 host).val = some ph
      ∧ (formatRefID E (maybeHostname E s1 host).state resp.ReferenceID resp.Stratum).val
          = some src
      ∧ (reportOnStep E s host recurs rlimit).1.reply = some resp
      ∧ printedOf (reportOnStep E s host recurs rlimit).1.events =
          [headerLine host ph, validityLine e]
            ++ (if resp.KissCode ≠ [] then [kissLine resp.KissCode] else [])
            ++ [stratumLine resp, timeSourceLine src resp,
                ascii "  Time at xmit:    " ++ resp.Time ++ ascii "\n",
                ascii "  RTT:             " ++ resp.RTT ++ ascii "\n",
                ascii "  Precision:       " ++ resp.Precision ++ ascii "\n",
                ascii "  MinError:        " ++ resp.MinError ++ ascii "\n",
                ascii "  Clock updated:   " ++ resp.ReferenceTime ++ ascii "\n",
                ascii "  Root delay:      " ++ resp.RootDelay ++ ascii "\n",
                ascii "  Root dispersion: " ++ resp.RootDispersion ++ ascii "\n",
                ascii "  local root distance: " ++ resp.RootDistance
                  ++ ascii " (via this server)\n",
                ascii "  local adjustment:    " ++ resp.ClockOffset
                  ++ ascii " (based on this server's time)\n"]
            ++ (if resp.Leap ≠ 0 then [leapLine resp] else [])
      ∧ (reportOnStep E s host recurs rlimit).1.next = none
      ∧ (∀ fuel : Nat, reportOn E (fuel + 1) s host recurs rlimit =
          some ([(reportOnStep E s host recurs rlimit).1],
            (reportOnStep E s host recurs rlimit).2))
      ∧ queriesOf (reportOnStep E s host recurs rlimit).1.events = [host] := by
  obtain ⟨ph, src, hm, hf⟩ := step_not_failed_vals E s host recurs rlimit resp s1 hq hok
  have hc : continueTo recurs (E.validate (maybeHostname E s1 host).state resp) rlimit resp
      = some none := by
    rw [hv]
    unfold continueTo
    simp
  obtain ⟨h1, _, h3, h4⟩ := step_ok E s host recurs rlimit resp s1 ph src none hq hm hf hc
  refine ⟨ph, src, hm, hf, h1, ?_, h3, ?_, step_queries E s host recurs rlimit⟩
  · rw [h4, hv]
    simp [tailLines]
  · intro fuel
    exact reportOn_last E fuel s host recurs rlimit h3

/-- C5, in the world `envInvalid`, for the target 10.0.0.1 with the flag set and budget 15:
the hop prints its thirteen lines and is the only hop. -/
theorem C5_invalid_reply_reported_witness :
    envInvalid.query () (ascii "10.0.0.1") = (.ok (replyOf 3 0x0A000002), ())
      ∧ (reportOnStep envInvalid () (ascii "10.0.0.1") true 15).1.failed = false
      ∧ printedOf (reportOnStep envInvalid () (ascii "10.0.0.1") true 15).1.events =
          [ascii "10.0.0.1 ntp.example:\n",
           ascii "  validity problem: server clock not fresh\n",
           ascii "  Stratum:         3\n",
           ascii "  Time Source:     10.0.0.2 ntp.example (0a000002)\n",
           ascii "  Time at xmit:    \n",
           ascii "  RTT:             \n",
           ascii "  Precision:       \n",
           ascii "  MinError:        \n",
           ascii "  Clock updated:   \n",
           ascii "  Root delay:      \n",
           ascii "  Root dispersion: \n",
           ascii "  local root distance:  (via this server)\n",
           ascii "  local adjustment:     (based on this server's time)\n"]
      ∧ (reportOnStep envInvalid () (ascii "10.0.0.1") true 15).1.next = none := by
  obtain ⟨ph, src, _, _, _, _, h6, _, _⟩ :=
    C5_invalid_reply_reported envInvalid () (ascii "10.0.0.1") true 15
      (replyOf 3 0x0A000002) () (ascii "server clock not fresh") rfl rfl (by decide)
  exact ⟨rfl, by decide, by decide, h6⟩

/-- C6: with the follow flag off, for every world, target and budget, the walk is exactly
one hop, the hop of the target, and exactly one query is issued, for the target; the hop
is the failure notice alone when the query fails and carries the reply when it succeeds,
whatever its stratum and identifier; every walk of the loop of `main` is then one hop with
one query. -/
theorem C6_no_follow_one_hop {σ : Type} (E : Env σ) (s : σ) (host : GoString) (n : Int)
    (k : Nat) :
    reportOn E (k + 1) s host false n =
        some ([(reportOnStep E s host false n).1], (reportOnStep E s host false n).2)
      ∧ (reportOnStep E s host false n).1.host = host
      ∧ queriesOf (walkEvents [(reportOnStep E s host false n).1]) = [host]
      ∧ (∀ (err : GoString) (s1 : σ), E.query s host = (.error err, s1) →
          (reportOnStep E s host false n).1.events =
            [.query host, .logf (ascii "error querying '" ++ host ++ ascii "': " ++ err)])
      ∧ (∀ (resp : Response) (s1 : σ), E.query s host = (.ok resp, s1) →
          (reportOnStep E s host false n).1.reply = some resp)
      ∧ (∀ args : List GoString, ∃ walks s', mainLoop E (k + 1) s args false
          = some (walks, s')
          ∧ ∀ w ∈ walks, w.length = 1 ∧ (queriesOf (walkEvents w)).length = 1) := by
  refine ⟨reportOn_last E k s host false n (step_no_follow E s host n),
    (step_args E s host false n).1, ?_, ?_, ?_, ?_⟩
  · simp [walkEvents, step_queries]
  · intro err s1 hq
    rw [step_query_error E s host false n err s1 hq]
  · intro resp s1 hq
    exact step_reply E s host false n resp s1 hq
  · intro args
    induction args generalizing s with
    | nil => exact ⟨[], s, rfl, by simp⟩
    | cons a rest ih =>
        have hr := reportOn_last E k s a false mainBudget (step_no_follow E s a mainBudget)
        have hone : ([(reportOnStep E s a false mainBudget).1] : List Hop).length = 1
            ∧ (queriesOf (walkEvents [(reportOnStep E s a false mainBudget).1])).length = 1 := by
          simp [walkEvents, step_queries]
        unfold mainLoop
        simp only [hr]
        by_cases hf : walkFailed [(reportOnStep E s a false mainBudget).1] = true
        · refine ⟨[[(reportOnStep E s a false mainBudget).1]],
            (reportOnStep E s a false mainBudget).2, by simp [hf], ?_⟩
          intro w hw
          simp only [List.mem_singleton] at hw
          subst hw
          exact hone
        · obtain ⟨walks, s2, hm, hw⟩ := ih (reportOnStep E s a false mainBudget).2
          refine ⟨[(reportOnStep E s a false mainBudget).1] :: walks, s2,
            by simp [hf, hm], ?_⟩
          intro w hmem
          rcases List.mem_cons.mp hmem with h1 | h1
          · subst h1
            exact hone
          · exact hw w h1

/-- C7: when a hop ends in a further call, the target of that call is `genAddr` of
`refIDToBytes` of the hop's reference identifier, the flag is the same and the budget is
the hop's budget minus 1; so in every walk that returned, hop `i` has the initial flag and
the budget `n - i`, the first hop has the initial target, and the target of hop `i + 1` is
the dotted quad of the reference identifier of the reply of hop `i`. -/
theorem C7_next_target_and_budget {σ : Type} (E : Env σ) (fuel : Nat) (s : σ)
    (host : GoString) (recurs : Bool) (n : Int) (hops : List Hop) (s' : σ)
    (hr : reportOn E fuel s host recurs n = some (hops, s')) :
    (∀ a : GoString × Bool × Int, (reportOnStep E s host recurs n).1.next = some a →
        ∃ resp, (reportOnStep E s host recurs n).1.reply = some resp
          ∧ genAddr (refIDToBytes resp.ReferenceID) = some a.1
          ∧ a.2.1 = recurs ∧ a.2.2 = n - 1)
      ∧ (∀ (i : Nat) (h : Hop), hops[i]? = some h →
          h.rlimit = n - (i : Int) ∧ h.recurs = recurs ∧ (i = 0 → h.host = host)
            ∧ ∀ (h' : Hop), hops[i + 1]? = some h' →
                ∃ resp, h.reply = some resp
                  ∧ genAddr (refIDToBytes resp.ReferenceID) = some h'.host
                  ∧ h.next = some (h'.host, recurs, n - (i : Int) - 1)) := by
  refine ⟨?_, reportOn_chain E fuel s host recurs n hops s' hr⟩
  intro a ha
  obtain ⟨resp, s1, _, hrep, _, hc⟩ := step_next E s host recurs n a ha
  obtain ⟨_, _, _, _, _, hg, hb1, hb2⟩ := (continueTo_some_iff _ _ _ _ _).mp hc
  exact ⟨resp, hrep, hg, hb1, hb2⟩

/-- C7, on the walk from `a` in the world `envChain` with the flag set and budget 15: the
second hop queries 10.0.0.1 with budget 14. -/
theorem C7_next_target_and_budget_witness :
    (reportOn envChain 2 () (ascii "a") true 15).map
        (fun r => r.1.map (fun h => (h.host, h.recurs, h.rlimit)))
        = some [(ascii "a", true, 15), (ascii "10.0.0.1", true, 14)]
      ∧ (∀ a : GoString × Bool × Int,
          (reportOnStep envChain () (ascii "a") true 15).1.next = some a →
            ∃ resp, (reportOnStep envChain () (ascii "a") true 15).1.reply = some resp
              ∧ genAddr (refIDToBytes resp.ReferenceID) = some a.1
              ∧ a.2.1 = true ∧ a.2.2 = 15 - 1) :=
  ⟨by decide,
    (C7_next_target_and_budget envChain 2 () (ascii "a") true 15
      [(reportOnStep envChain () (ascii "a") true 15).1,
       (reportOnStep envChain () (ascii "10.0.0.1") true 14).1] () (by decide)).1⟩

/-! ## Resolver use: the claims -/

/-- C8, at stratum 0 with the identifier 0x52415445 (`RATE`) in the world `envKiss`:
`formatRefID` hands 82.65.84.69 to the resolver and returns the dotted quad followed by
the resolved name, not the dotted quad alone, and a hop of `reportOn` on such a reply
makes that lookup. In every world, at stratum 0, a first byte below 224 leads to a lookup
of the dotted quad. With a first byte of 224 or more `formatRefID` makes no lookup and
returns the dotted quad, at every stratum. -/
theorem C8_stratum_zero_lookup :
    (genAddr (refIDToBytes 0x52415445) = some (ascii "82.65.84.69")
      ∧ lookupsOf (formatRefID envKiss () 0x52415445 0).events = [ascii "82.65.84.69"]
      ∧ (formatRefID envKiss () 0x52415445 0).val = some (ascii "82.65.84.69 rate.example")
      ∧ lookupsOf (reportOnStep envKiss () (ascii "t") false 15).1.events
          = [ascii "82.65.84.69"])
      ∧ (∀ (σ : Type) (E : Env σ) (s : σ) (r : Nat) (addr : GoString),
          isReservedRange (refIDToBytes r) = some false →
          genAddr (refIDToBytes r) = some addr →
            lookupsOf (formatRefID E s r 0).events = [addr])
      ∧ (∀ (σ : Type) (E : Env σ) (s : σ) (r stratum : Nat),
          isReservedRange (refIDToBytes r) = some true →
            (formatRefID E s r stratum).val = genAddr (refIDToBytes r)
              ∧ (formatRefID E s r stratum).events = []) := by
  refine ⟨by decide, ?_, ?_⟩
  · intro σ E s r addr h ha
    exact (formatRefID_lookup E s r 0 addr (by decide) h ha).1
  · intro σ E s r stratum h
    exact formatRefID_reserved E s r stratum h

/-- C10, in the world `envLocalhost`, whose resolver returns the name `localhost` without
a trailing dot: `maybeHostname` and `formatRefID` drop its last byte and show `localhos`.
In the world `envEmptyName`, whose resolver returns the empty name, both fail at run time.
In every world the name shown is `x[:len(x)-1]` of the first name alone: a first name that
ends in a dot loses exactly that dot (as `ntp.example.` in the world `envInvalid`), and
the other names are not used. -/
theorem C10_first_name_last_byte_dropped :
    ((maybeHostname envLocalhost () (ascii "127.0.0.1")).val = some (ascii "localhos")
      ∧ (formatRefID envLocalhost () 0x7F000001 2).val = some (ascii "127.0.0.1 localhos")
      ∧ (maybeHostname envEmptyName () (ascii "10.0.0.1")).val = none
      ∧ (formatRefID envEmptyName () 0x0A000001 2).val = none
      ∧ (maybeHostname envInvalid () (ascii "10.0.0.2")).val = some (ascii "ntp.example")
      ∧ (formatRefID envInvalid () 0x0A000002 2).val = some (ascii "10.0.0.2 ntp.example"))
      ∧ (∀ (σ : Type) (E : Env σ) (s : σ) (host r0 : GoString) (rest : List GoString)
          (s1 : σ), E.parseIP host = true → E.lookupAddr s host = (.ok (r0 :: rest), s1) →
            (maybeHostname E s host).val = sliceDropLast r0)
      ∧ (∀ (σ : Type) (E : Env σ) (s : σ) (r stratum : Nat) (addr r0 : GoString)
          (rest : List GoString) (s1 : σ), stratum ≠ 1 →
          isReservedRange (refIDToBytes r) = some false →
          genAddr (refIDToBytes r) = some addr →
          E.lookupAddr s addr = (.ok (r0 :: rest), s1) →
            (formatRefID E s r stratum).val
              = (sliceDropLast r0).map (fun nm => addr ++ ascii " " ++ nm))
      ∧ (∀ nm : GoString, sliceDropLast (nm ++ ascii ".") = some nm)
      ∧ sliceDropLast (ascii "localhost") = some (ascii "localhos")
      ∧ sliceDropLast [] = none := by
  refine ⟨by decide, ?_, ?_, ?_, by decide, by decide⟩
  · intro σ E s host r0 rest s1 hp hl
    exact maybeHostname_name E s host r0 rest s1 hp hl
  · intro σ E s r stratum addr r0 rest s1 hs h ha hl
    exact (formatRefID_lookup E s r stratum addr hs h ha).2 r0 rest s1 hl
  · intro nm
    exact sliceDropLast_append_one nm 46

end Sntpq
